import Mathlib

/-!
# Verification of the taschenkrebs buoy-drift pipeline

Shallow embedding of the core ingestion / reconciliation / alerting pipeline
of `src/taschenkrebs.py` (function `fetch_and_append`, the `haversine`
distance function and the latest-view block), together with proofs and
refutations of the specification's claims about it.

Modelling conventions:
* `datetime` values are modelled as `Nat` timestamps (only their total order
  and equality matter to the code under scrutiny).
* Coordinates are `ℚ` in the discrete pipeline model; the real-valued
  `haversine` function itself is modelled over `ℝ` separately (it is the
  only floating-point computation with numerical claims attached).
* The per-buoy distance computation inside the alert loop is abstracted as a
  parameter `dist : DistFn`; every state-machine theorem is proved for an
  arbitrary distance function, hence in particular for haversine.  Concrete
  evaluations use `zeroDist` (matching `haversine` at coincident points,
  see `haversine_spec`) or `farDist`.
* File existence of the master CSV is `Option`: `none` means the file does
  not exist, `some rows` its parsed contents.
* The Python `dict` `alerted` (the persisted AlertState, `alerted.json`) is
  an association list; assignment of a new key appends at the end, exactly
  as insertion order is kept by a Python dict.
* `D_number` whitespace-stripping (line 265) happens at parse time, before
  the code modelled here runs; batches are taken as already parsed/stripped.
-/

namespace Taschenkrebs

/-- A parsed row of a drifter CSV: columns `D_number`, `date_UTC`,
`Latitude`, `Longitude`, `batteryState` (lines 257-265 of
`taschenkrebs.py`). -/
structure Record where
  dNumber : String
  dateUTC : Nat
  lat : ℚ
  lon : ℚ
  battery : String
deriving DecidableEq, Repr

/-- One row of `home_positions.csv` after `load_home_positions` (lines
51-78): home coordinates and the activation timestamp (`date_UTC`). -/
structure HomePos where
  latHome : ℚ
  lonHome : ℚ
  activation : Nat
deriving DecidableEq, Repr

/-- The home registry: the `home` DataFrame indexed by `D_number`. -/
abbrev HomeRegistry := List (String × HomePos)

/-- Association-list lookup (Python `dict` / DataFrame-index lookup). -/
def alookup {β : Type} : List (String × β) → String → Option β
  | [], _ => none
  | (k, v) :: rest, key => if k = key then some v else alookup rest key

/-- The persisted AlertState (`alerted.json`): `buoy_id ↦ first_alerted_at`
(`datetime.now().isoformat()` modelled as a `Nat`). -/
abbrev Alerted := List (String × Nat)

/-- Distance functions `(lat1, lon1, lat2, lon2) ↦ metres`; the pipeline
theorems are generic in this slot, which the script fills with `haversine`. -/
abbrev DistFn := ℚ → ℚ → ℚ → ℚ → ℚ

/-- The constant-zero distance function; `haversine` agrees with it whenever
the two points coincide (first conjunct of `haversine_spec`). -/
def zeroDist : DistFn := fun _ _ _ _ => 0

/-- A distance function that always reports a huge excursion. -/
def farDist : DistFn := fun _ _ _ _ => 1000000

/-- The activation filter's row predicate, lines 269-273:
`df['D_number'].map(home_df['date_UTC'])` is the buoy's activation time
(`NaN` for a buoy absent from the registry) and the row is kept iff
`date_UTC > activation`; a `NaN` comparison is `False`, so unknown buoys
are dropped. -/
def keepAfterActivation (home : HomeRegistry) (r : Record) : Bool :=
  match alookup home r.dNumber with
  | some h => decide (h.activation < r.dateUTC)
  | none => false

/-- Lines 269-273: `df = df.loc[df['date_UTC'] > activation_times]`. -/
def filterActivation (home : HomeRegistry) (batch : List Record) : List Record :=
  batch.filter (keepAfterActivation home)

/-- Insert a record into a per-buoy latest-record table, keeping for each
`D_number` the record with the greatest `date_UTC` (a later record wins a
timestamp tie, matching `sort_values('date_UTC') … groupby … last()`). -/
def insertLatest (r : Record) : List (String × Record) → List (String × Record)
  | [] => [(r.dNumber, r)]
  | (k, q) :: rest =>
    if k = r.dNumber then
      if q.dateUTC ≤ r.dateUTC then (k, r) :: rest else (k, q) :: rest
    else (k, q) :: insertLatest r rest

/-- Lines 287-293 (and 379-383): one most-recent record per buoy.
(The pandas version sorts the output by `D_number`; row order of this table
is irrelevant to every claim, so first-appearance order is kept.) -/
def currentPositions (batch : List Record) : List (String × Record) :=
  batch.foldl (fun acc r => insertLatest r acc) []

/-- A dispatched e-mail notification (`send_notification`, lines 311 and
338-340). -/
inductive Notif where
  | drift (buoy : String) (d : ℚ)
  | silence (buoy : String)
deriving DecidableEq, Repr

/-- The buoy a notification is about. -/
def notifBuoy : Notif → String
  | .drift b _ => b
  | .silence b => b

/-- A timestamped `log(...)` message emitted while a batch is processed:
`log(f"Sent alert for {buoy}: {dist:.1f} m")` (line 312) and
`log(f"Appended {len(df)} rows from {fname}")` (line 351).  No other `log`
call runs in the per-attachment pipeline. -/
inductive LogMsg where
  | sentAlert (buoy : String)
  | appended (n : Nat) (fname : String)
deriving DecidableEq, Repr

/-- Whether a log message mentions a given buoy identifier.  The
`sentAlert` text names its buoy; the `appended` text contains only a row
count and the attachment's file name, never a buoy id. -/
def logMentions : LogMsg → String → Bool
  | .sentAlert b, bid => b == bid
  | .appended _ _, _ => false

/-- Lines 297-313, the drift loop: iterate `merged = home.join(current,
how='inner')` in registry order; for each buoy with a current position,
compute the distance home→current and, when `dist > ALERT_THRESHOLD` (50.0)
and the buoy is not yet in `alerted`, send a drift notification, log it and
record `alerted[buoy] = now`.  Returns (alerted, notifications, logs). -/
def driftLoop (dist : DistFn) (current : List (String × Record)) (now : Nat) :
    HomeRegistry → Alerted → Alerted × List Notif × List LogMsg
  | [], al => (al, [], [])
  | (b, h) :: rest, al =>
    match alookup current b with
    | none => driftLoop dist current now rest al
    | some c =>
      if 50 < dist h.latHome h.lonHome c.lat c.lon ∧ alookup al b = none then
        let res := driftLoop dist current now rest (al ++ [(b, now)])
        (res.1, .drift b (dist h.latHome h.lonHome c.lat c.lon) :: res.2.1,
         .sentAlert b :: res.2.2)
      else driftLoop dist current now rest al

/-- Lines 324-341, the silence loop: for each buoy of
`home_ids - current_ids` not yet in `alerted`, send a missing-transmission
notification and record `alerted[buoy] = now`.  (Python iterates a set in
unspecified order; registry order is fixed here — all claims about this
loop are order-insensitive.)  No `log` call occurs in this loop. -/
def silenceLoop (currentIds : List String) (now : Nat) :
    HomeRegistry → Alerted → Alerted × List Notif
  | [], al => (al, [])
  | (b, _) :: rest, al =>
    if b ∉ currentIds ∧ alookup al b = none then
      let res := silenceLoop currentIds now rest (al ++ [(b, now)])
      (res.1, .silence b :: res.2)
    else silenceLoop currentIds now rest al

/-- The mutable state `fetch_and_append` threads between CSV attachments:
the `alerted` dict, the master CSV (`none` = file absent, line 276/348) and
the accumulating `seen_ids` set (kept as a list; only membership is used). -/
structure PState where
  alerted : Alerted
  master : Option (List Record)
  seenIds : List String
deriving DecidableEq, Repr

/-- Everything one CSV attachment's processing produces. -/
structure PartResult where
  state : PState
  notifs : List Notif
  logs : List LogMsg
  cleaned : List Record
deriving DecidableEq, Repr

/-- Lines 256-352 of `fetch_and_append`, the processing of one parsed CSV
attachment: record the raw batch's buoys in `seen_ids` (line 267), apply
the activation filter (269-273), then — only if the master CSV exists
(line 276) — run the drift loop (297-313) and the silence loop (324-341)
over the cleaned batch's per-buoy latest positions, persist `alerted`
(343-345, value captured in the state), and append the cleaned batch to the
master CSV with a header when the file was absent (347-351). -/
def processAttachment (dist : DistFn) (home : HomeRegistry) (st : PState)
    (batch : List Record) (fname : String) (now : Nat) : PartResult :=
  let seen := st.seenIds ++ batch.map (fun r => r.dNumber)
  let cleaned := filterActivation home batch
  match st.master with
  | none =>
    { state := { alerted := st.alerted, master := some cleaned, seenIds := seen },
      notifs := [], logs := [.appended cleaned.length fname], cleaned := cleaned }
  | some rows =>
    let current := currentPositions cleaned
    let dres := driftLoop dist current now home st.alerted
    let sres := silenceLoop (current.map (fun p => p.1)) now home dres.1
    { state := { alerted := sres.1, master := some (rows ++ cleaned), seenIds := seen },
      notifs := dres.2.1 ++ sres.2,
      logs := dres.2.2 ++ [.appended cleaned.length fname],
      cleaned := cleaned }

/-- An externally observable I/O effect of processing one message, in the
order the code performs them: write `alerted.json` (lines 344-345), append
to the master CSV (349), and mark the source message read + labelled
(356-363). -/
inductive Effect where
  | persistedAlertState
  | appendedToMaster
  | markedConsumed
deriving DecidableEq, Repr

/-- One message's processing with its consumption marking, lines 343-365:
alert evaluation has already run (notifications are fire-and-forget and
precede persistence); then the alert-state write and the CSV append each
either succeed or raise (the exception propagates out of
`fetch_and_append`, so nothing later runs); only when both succeeded is the
message marked consumed.  Returns the outcome and the effect trace. -/
def processMessage (dist : DistFn) (home : HomeRegistry)
    (persistOk appendOk : Bool) (st : PState) (batch : List Record)
    (fname : String) (now : Nat) : Except String PState × List Effect :=
  let res := processAttachment dist home st batch fname now
  if persistOk then
    if appendOk then
      (.ok res.state, [.persistedAlertState, .appendedToMaster, .markedConsumed])
    else (.error "StorageError", [.persistedAlertState])
  else (.error "StorageError", [])

/-- One Gmail message as the run loop sees it: its id, the parse result of
its CSV attachment (`.error` = `pd.read_csv` raised on malformed rows) and
the attachment file name. -/
structure Msg where
  id : String
  payload : Except String (List Record)
  fname : String

/-- Whether a message's attachment parses. -/
def parseOk (m : Msg) : Bool :=
  match m.payload with
  | .ok _ => true
  | .error _ => false

/-- The run loop of `fetch_and_append` (lines 242-365) together with the
`__main__` handler (419-429): messages are processed oldest to newest, each
fully processed message is marked consumed before the next starts; any
exception — in particular a `pd.read_csv` failure on a malformed batch —
propagates, is logged at top level and ends the process with exit code 1.
Returns `.ok (state, consumed)` for a clean run and `.error (state,
consumed)` for an aborted one (state and consumed at abort time). -/
def runAll (dist : DistFn) (home : HomeRegistry) :
    PState → List String → List Msg → Except (PState × List String) (PState × List String)
  | st, consumed, [] => .ok (st, consumed)
  | st, consumed, m :: rest =>
    match m.payload with
    | .error _ => .error (st, consumed)
    | .ok batch =>
      runAll dist home (processAttachment dist home st batch m.fname 0).state
        (consumed ++ [m.id]) rest

/-- The state after processing a list of well-formed messages (the clean
prefix of a run); used to characterise where an aborted run stops. -/
def runGood (dist : DistFn) (home : HomeRegistry) : PState → List Msg → PState
  | st, [] => st
  | st, m :: rest =>
    match m.payload with
    | .error _ => st
    | .ok batch =>
      runGood dist home (processAttachment dist home st batch m.fname 0).state rest

/-- One row of `latest_positions.csv` (lines 379-396): the latest record's
fields, the left-merged home coordinates (`none` = no registry entry, NaN
in pandas) and the haversine distance home→latest (`none` when there is no
home entry). -/
structure ViewRow where
  dNumber : String
  lat : ℚ
  lon : ℚ
  dateUTC : Nat
  battery : String
  homePos : Option (ℚ × ℚ)
  distance : Option ℚ
deriving DecidableEq, Repr

/-- Lines 379-389: build one view row from a buoy's latest record by
left-merging the home registry and computing `distance_m`. -/
def mkViewRow (dist : DistFn) (home : HomeRegistry) (p : String × Record) : ViewRow :=
  { dNumber := p.1, lat := p.2.lat, lon := p.2.lon, dateUTC := p.2.dateUTC,
    battery := p.2.battery,
    homePos := (alookup home p.1).map (fun h => (h.latHome, h.lonHome)),
    distance := (alookup home p.1).map (fun h => dist h.latHome h.lonHome p.2.lat p.2.lon) }

/-- Lines 390-394: `missing = set(home.index) - seen_ids`; every view row
whose buoy is missing gets `batteryState` overwritten with `'UNKNOWN'`. -/
def markMissing (home : HomeRegistry) (seenIds : List String) (row : ViewRow) : ViewRow :=
  if row.dNumber ∈ home.map (fun p => p.1) ∧ row.dNumber ∉ seenIds then
    { row with battery := "UNKNOWN" }
  else row

/-- Lines 371-396: the latest-position view written to
`latest_positions.csv` — one most-recent record per buoy of the master CSV,
merged with home coordinates, distance annotated, and missing buoys'
`batteryState` overridden. -/
def buildLatestView (dist : DistFn) (home : HomeRegistry) (master : List Record)
    (seenIds : List String) : List ViewRow :=
  (currentPositions master).map (fun p => markMissing home seenIds (mkViewRow dist home p))

/-! ## The real-valued haversine distance (lines 80-87) -/

/-- `math.radians`: degrees to radians. -/
noncomputable def radians (x : ℝ) : ℝ := x * Real.pi / 180

/-- Lines 80-87: great-circle distance in metres between two lat/lon
points on a sphere of radius `R = 6371000` m:
`2 * R * asin(sqrt(sin(dphi/2)**2 + cos(phi1)*cos(phi2)*sin(dlambda/2)**2))`. -/
noncomputable def haversine (lat1 lon1 lat2 lon2 : ℝ) : ℝ :=
  2 * 6371000 * Real.arcsin (Real.sqrt
    (Real.sin (radians (lat2 - lat1) / 2) ^ 2 +
     Real.cos (radians lat1) * Real.cos (radians lat2) *
       Real.sin (radians (lon2 - lon1) / 2) ^ 2))

/-! ## Concrete data for witnesses and counterexamples -/

/-- A one-buoy home registry: `D1` home `(54, 8)`, activated at time 0. -/
def hwD1 : HomeRegistry := [("D1", ⟨54, 8, 0⟩)]

/-- A two-buoy home registry: `D1` and `D2`. -/
def hwD12 : HomeRegistry := [("D1", ⟨54, 8, 0⟩), ("D2", ⟨10, 20, 0⟩)]

/-- A state with `D1` already alerting (`first_alerted_at = 5`) and an
existing (empty) master CSV. -/
def stAlerting : PState := { alerted := [("D1", 5)], master := some [], seenIds := [] }

/-- A fresh state: nothing alerted and no master CSV yet (first-ever run). -/
def stFresh : PState := { alerted := [], master := none, seenIds := [] }

/-- A state with an existing empty master CSV and nothing alerted. -/
def stMaster : PState := { alerted := [], master := some [], seenIds := [] }

/-- A record of `D1` exactly at its home position, after activation. -/
def recHome : Record := { dNumber := "D1", dateUTC := 10, lat := 54, lon := 8, battery := "GOOD" }

/-- A record of a buoy `D9` that has no home-registry entry. -/
def recUnknown : Record := { dNumber := "D9", dateUTC := 5, lat := 1, lon := 2, battery := "GOOD" }

/-- A record of `D2` away from its home, battery `GOOD`. -/
def recD2 : Record := { dNumber := "D2", dateUTC := 10, lat := 3, lon := 4, battery := "GOOD" }

/-- A message whose CSV attachment fails to parse (malformed rows). -/
def msgBad : Msg := { id := "m1", payload := .error "ParseError", fname := "bad.csv" }

/-- A well-formed message carrying one record of `D1`. -/
def msgGood : Msg := { id := "m2", payload := .ok [recHome], fname := "good.csv" }

/-- A second well-formed message (empty batch). -/
def msgGood2 : Msg := { id := "m3", payload := .ok [], fname := "good2.csv" }

/-- The view row the builder produces for `D2` from `[recD2]` when `D2`
did not report in the run: note `battery = "UNKNOWN"`, not `recD2`'s
`"GOOD"`. -/
def rowD2 : ViewRow :=
  { dNumber := "D2", lat := 3, lon := 4, dateUTC := 10, battery := "UNKNOWN",
    homePos := some (10, 20), distance := some 0 }

/-! ## Association-list lemmas -/

theorem alookup_append_some {β : Type} {a : List (String × β)} (d : List (String × β))
    {k : String} {v : β} (h : alookup a k = some v) : alookup (a ++ d) k = some v := by
  induction a with
  | nil => simp [alookup] at h
  | cons p rest ih =>
    obtain ⟨pk, pv⟩ := p
    by_cases hk : pk = k
    · simp only [alookup, List.cons_append, if_pos hk] at h ⊢; exact h
    · simp only [alookup, List.cons_append, if_neg hk] at h ⊢; exact ih h

theorem alookup_append_none {β : Type} {a d : List (String × β)} {k : String}
    (h : alookup (a ++ d) k = none) : alookup a k = none := by
  rcases hv : alookup a k with _ | v
  · rfl
  · rw [alookup_append_some d hv] at h; cases h

theorem alookup_append_of_none {β : Type} {a : List (String × β)} (d : List (String × β))
    {k : String} (h : alookup a k = none) : alookup (a ++ d) k = alookup d k := by
  induction a with
  | nil => simp
  | cons p rest ih =>
    obtain ⟨pk, pv⟩ := p
    by_cases hk : pk = k
    · simp [alookup, if_pos hk] at h
    · simp only [alookup, List.cons_append, if_neg hk] at h ⊢; exact ih h

theorem alookup_append_single {β : Type} {al : List (String × β)} {b bp : String}
    {t : β} (h : bp ≠ b) : alookup (al ++ [(bp, t)]) b = alookup al b := by
  induction al with
  | nil => simp [alookup, h]
  | cons p rest ih =>
    obtain ⟨pk, pv⟩ := p
    by_cases hk : pk = b
    · simp [alookup, if_pos hk]
    · simp only [alookup, List.cons_append, if_neg hk]; exact ih

theorem alookup_none_iff {β : Type} {l : List (String × β)} {k : String} :
    alookup l k = none ↔ k ∉ l.map (fun p => p.1) := by
  induction l with
  | nil => simp [alookup]
  | cons p rest ih =>
    obtain ⟨pk, pv⟩ := p
    by_cases hk : pk = k
    · subst hk; simp [alookup]
    · have hk2 : ¬ k = pk := fun he => hk he.symm
      simp [alookup, hk, ih, hk2]

theorem alookup_isSome_iff {β : Type} {l : List (String × β)} {k : String} :
    (alookup l k).isSome = true ↔ k ∈ l.map (fun p => p.1) := by
  induction l with
  | nil => simp [alookup]
  | cons p rest ih =>
    obtain ⟨pk, pv⟩ := p
    by_cases hk : pk = k
    · subst hk; simp [alookup]
    · have hk2 : ¬ k = pk := fun he => hk he.symm
      simp [alookup, hk, ih, hk2]

/-! ## Drift-loop lemmas -/

theorem driftLoop_alerted_some (dist : DistFn) (current : List (String × Record))
    (now : Nat) : ∀ (home : HomeRegistry) (al : Alerted) (b : String) (t : Nat),
    alookup al b = some t → alookup (driftLoop dist current now home al).1 b = some t := by
  intro home
  induction home with
  | nil => intro al b t h; simpa [driftLoop] using h
  | cons p rest ih =>
    intro al b t h
    obtain ⟨bp, hp⟩ := p
    cases hcur : alookup current bp with
    | none => simpa [driftLoop, hcur] using ih al b t h
    | some c =>
      by_cases hif : 50 < dist hp.latHome hp.lonHome c.lat c.lon ∧ alookup al bp = none
      · simpa [driftLoop, hcur, hif] using ih _ b t (alookup_append_some _ h)
      · simpa [driftLoop, hcur, hif] using ih al b t h

theorem driftLoop_alerted_of_not_current (dist : DistFn)
    (current : List (String × Record)) (now : Nat) :
    ∀ (home : HomeRegistry) (al : Alerted) (b : String), alookup current b = none →
    alookup (driftLoop dist current now home al).1 b = alookup al b := by
  intro home
  induction home with
  | nil => intro al b _; simp [driftLoop]
  | cons p rest ih =>
    intro al b hb
    obtain ⟨bp, hp⟩ := p
    cases hcur : alookup current bp with
    | none => simpa [driftLoop, hcur] using ih al b hb
    | some c =>
      by_cases hif : 50 < dist hp.latHome hp.lonHome c.lat c.lon ∧ alookup al bp = none
      · have hne : bp ≠ b := by
          intro he; subst he; rw [hb] at hcur; cases hcur
        have := ih (al ++ [(bp, now)]) b hb
        simpa [driftLoop, hcur, hif, alookup_append_single hne] using this
      · simpa [driftLoop, hcur, hif] using ih al b hb

theorem driftLoop_notif (dist : DistFn) (current : List (String × Record)) (now : Nat) :
    ∀ (home : HomeRegistry) (al : Alerted) (n : Notif),
    n ∈ (driftLoop dist current now home al).2.1 →
    ∃ b d0, n = .drift b d0 ∧ alookup al b = none ∧ b ∈ home.map (fun p => p.1) ∧
      (alookup current b).isSome = true := by
  intro home
  induction home with
  | nil => intro al n h; simp [driftLoop] at h
  | cons p rest ih =>
    intro al n h
    obtain ⟨bp, hp⟩ := p
    cases hcur : alookup current bp with
    | none =>
      simp only [driftLoop, hcur] at h
      obtain ⟨b, d0, h1, h2, h3, h4⟩ := ih al n h
      exact ⟨b, d0, h1, h2, by simp [h3], h4⟩
    | some c =>
      by_cases hif : 50 < dist hp.latHome hp.lonHome c.lat c.lon ∧ alookup al bp = none
      · simp only [driftLoop, hcur, if_pos hif, List.mem_cons] at h
        rcases h with h | h
        · exact ⟨bp, _, h, hif.2, by simp, by simp [hcur]⟩
        · obtain ⟨b, d0, h1, h2, h3, h4⟩ := ih _ n h
          exact ⟨b, d0, h1, alookup_append_none h2, by simp [h3], h4⟩
      · simp only [driftLoop, hcur, if_neg hif] at h
        obtain ⟨b, d0, h1, h2, h3, h4⟩ := ih al n h
        exact ⟨b, d0, h1, h2, by simp [h3], h4⟩

theorem driftLoop_log (dist : DistFn) (current : List (String × Record)) (now : Nat) :
    ∀ (home : HomeRegistry) (al : Alerted) (l : LogMsg),
    l ∈ (driftLoop dist current now home al).2.2 →
    ∃ b, l = .sentAlert b ∧ b ∈ home.map (fun p => p.1) := by
  intro home
  induction home with
  | nil => intro al l h; simp [driftLoop] at h
  | cons p rest ih =>
    intro al l h
    obtain ⟨bp, hp⟩ := p
    cases hcur : alookup current bp with
    | none =>
      simp only [driftLoop, hcur] at h
      obtain ⟨b, h1, h2⟩ := ih al l h
      exact ⟨b, h1, by simp [h2]⟩
    | some c =>
      by_cases hif : 50 < dist hp.latHome hp.lonHome c.lat c.lon ∧ alookup al bp = none
      · simp only [driftLoop, hcur, if_pos hif, List.mem_cons] at h
        rcases h with h | h
        · exact ⟨bp, h, by simp⟩
        · obtain ⟨b, h1, h2⟩ := ih _ l h
          exact ⟨b, h1, by simp [h2]⟩
      · simp only [driftLoop, hcur, if_neg hif] at h
        obtain ⟨b, h1, h2⟩ := ih al l h
        exact ⟨b, h1, by simp [h2]⟩

/-! ## Silence-loop lemmas -/

theorem silenceLoop_alerted_some (ids : List String) (now : Nat) :
    ∀ (home : HomeRegistry) (al : Alerted) (b : String) (t : Nat),
    alookup al b = some t → alookup (silenceLoop ids now home al).1 b = some t := by
  intro home
  induction home with
  | nil => intro al b t h; simpa [silenceLoop] using h
  | cons p rest ih =>
    intro al b t h
    obtain ⟨bp, hp⟩ := p
    by_cases hif : bp ∉ ids ∧ alookup al bp = none
    · simpa [silenceLoop, hif] using ih _ b t (alookup_append_some _ h)
    · simpa [silenceLoop, hif] using ih al b t h

theorem silenceLoop_notif (ids : List String) (now : Nat) :
    ∀ (home : HomeRegistry) (al : Alerted) (n : Notif),
    n ∈ (silenceLoop ids now home al).2 →
    ∃ b, n = .silence b ∧ b ∉ ids ∧ alookup al b = none ∧
      b ∈ home.map (fun p => p.1) := by
  intro home
  induction home with
  | nil => intro al n h; simp [silenceLoop] at h
  | cons p rest ih =>
    intro al n h
    obtain ⟨bp, hp⟩ := p
    by_cases hif : bp ∉ ids ∧ alookup al bp = none
    · simp only [silenceLoop, if_pos hif, List.mem_cons] at h
      rcases h with h | h
      · exact ⟨bp, h, hif.1, hif.2, by simp⟩
      · obtain ⟨b, h1, h2, h3, h4⟩ := ih _ n h
        exact ⟨b, h1, h2, alookup_append_none h3, by simp [h4]⟩
    · simp only [silenceLoop, if_neg hif] at h
      obtain ⟨b, h1, h2, h3, h4⟩ := ih al n h
      exact ⟨b, h1, h2, h3, by simp [h4]⟩

theorem silenceLoop_triggers (ids : List String) (now : Nat) :
    ∀ (home : HomeRegistry) (al : Alerted) (b : String) (hh : HomePos),
    (b, hh) ∈ home → b ∉ ids → alookup al b = none →
    Notif.silence b ∈ (silenceLoop ids now home al).2 := by
  intro home
  induction home with
  | nil => intro al b hh h _ _; simp at h
  | cons p rest ih =>
    intro al b hh hmem hids hal
    obtain ⟨bp, hp⟩ := p
    by_cases hbp : bp = b
    · subst hbp
      have hif : bp ∉ ids ∧ alookup al bp = none := ⟨hids, hal⟩
      simp [silenceLoop, if_pos hif]
    · have hmem2 : (b, hh) ∈ rest := by
        rcases List.mem_cons.mp hmem with h | h
        · cases h; exact absurd rfl hbp
        · exact h
      by_cases hif : bp ∉ ids ∧ alookup al bp = none
      · have hal2 : alookup (al ++ [(bp, now)]) b = none := by
          rw [alookup_append_single hbp]; exact hal
        simp only [silenceLoop, if_pos hif, List.mem_cons]
        exact Or.inr (ih _ b hh hmem2 hids hal2)
      · simp only [silenceLoop, if_neg hif]
        exact ih al b hh hmem2 hids hal

theorem silenceLoop_covers (ids : List String) (now : Nat) :
    ∀ (home : HomeRegistry) (al : Alerted) (b : String) (hh : HomePos),
    (b, hh) ∈ home → b ∉ ids →
    (alookup (silenceLoop ids now home al).1 b).isSome = true := by
  intro home
  induction home with
  | nil => intro al b hh h _; simp at h
  | cons p rest ih =>
    intro al b hh hmem hids
    obtain ⟨bp, hp⟩ := p
    by_cases hif : bp ∉ ids ∧ alookup al bp = none
    · by_cases hbp : bp = b
      · subst hbp
        have : alookup (al ++ [(bp, now)]) bp = some now := by
          rw [alookup_append_of_none _ hif.2]; simp [alookup]
        have := silenceLoop_alerted_some ids now rest _ bp now this
        simp [silenceLoop, if_pos hif, this]
      · rcases List.mem_cons.mp hmem with h | h
        · cases h; exact absurd rfl hbp
        · simp only [silenceLoop, if_pos hif]
          exact ih _ b hh h hids
    · by_cases hbp : bp = b
      · subst hbp
        rcases hv : alookup al bp with _ | v
        · exact absurd ⟨hids, hv⟩ hif
        · have := silenceLoop_alerted_some ids now rest al bp v hv
          simp [silenceLoop, if_neg hif, this]
      · rcases List.mem_cons.mp hmem with h | h
        · cases h; exact absurd rfl hbp
        · simp only [silenceLoop, if_neg hif]
          exact ih al b hh h hids

/-! ## Latest-position-table lemmas -/

theorem insertLatest_keys (r : Record) :
    ∀ (acc : List (String × Record)) (a : String),
    a ∈ (insertLatest r acc).map (fun p => p.1) ↔
      a = r.dNumber ∨ a ∈ acc.map (fun p => p.1) := by
  intro acc
  induction acc with
  | nil => intro a; simp [insertLatest]
  | cons p rest ih =>
    intro a
    obtain ⟨k, q⟩ := p
    by_cases hk : k = r.dNumber
    · by_cases hle : q.dateUTC ≤ r.dateUTC
      · simp only [insertLatest, if_pos hk, if_pos hle, List.map_cons, List.mem_cons]
        rw [hk]; tauto
      · simp only [insertLatest, if_pos hk, if_neg hle, List.map_cons, List.mem_cons]
        rw [hk]; tauto
    · simp only [insertLatest, if_neg hk, List.map_cons, List.mem_cons, ih]
      tauto

theorem foldl_insertLatest_keys :
    ∀ (l : List Record) (acc : List (String × Record)) (a : String),
    a ∈ (l.foldl (fun acc r => insertLatest r acc) acc).map (fun p => p.1) ↔
      a ∈ acc.map (fun p => p.1) ∨ a ∈ l.map (fun r => r.dNumber) := by
  intro l
  induction l with
  | nil => intro acc a; simp
  | cons r rest ih =>
    intro acc a
    simp only [List.foldl_cons, List.map_cons, List.mem_cons]
    rw [ih, insertLatest_keys]
    tauto

theorem currentPositions_keys (l : List Record) (a : String) :
    a ∈ (currentPositions l).map (fun p => p.1) ↔ a ∈ l.map (fun r => r.dNumber) := by
  simpa [currentPositions] using foldl_insertLatest_keys l [] a

/-! ## Per-attachment pipeline lemmas -/

theorem processAttachment_cleaned (dist : DistFn) (home : HomeRegistry) (st : PState)
    (batch : List Record) (fname : String) (now : Nat) :
    (processAttachment dist home st batch fname now).cleaned =
      filterActivation home batch := by
  cases hm : st.master <;> simp [processAttachment, hm]

theorem processAttachment_alerted_some (dist : DistFn) (home : HomeRegistry) (st : PState)
    (batch : List Record) (fname : String) (now : Nat) (b : String) (t : Nat)
    (h : alookup st.alerted b = some t) :
    alookup (processAttachment dist home st batch fname now).state.alerted b = some t := by
  cases hm : st.master with
  | none => simpa [processAttachment, hm] using h
  | some rows =>
    simp only [processAttachment, hm]
    exact silenceLoop_alerted_some _ _ _ _ _ _
      (driftLoop_alerted_some _ _ _ _ _ _ _ h)

theorem processAttachment_notif_fresh (dist : DistFn) (home : HomeRegistry) (st : PState)
    (batch : List Record) (fname : String) (now : Nat) (n : Notif)
    (hn : n ∈ (processAttachment dist home st batch fname now).notifs) :
    alookup st.alerted (notifBuoy n) = none := by
  cases hm : st.master with
  | none => simp [processAttachment, hm] at hn
  | some rows =>
    simp only [processAttachment, hm, List.mem_append] at hn
    rcases hn with hn | hn
    · obtain ⟨b, d0, he, hal, _, _⟩ := driftLoop_notif _ _ _ _ _ _ hn
      subst he
      simpa [notifBuoy] using hal
    · obtain ⟨b, he, _, hal, _⟩ := silenceLoop_notif _ _ _ _ _ hn
      subst he
      simp only [notifBuoy]
      rcases hv : alookup st.alerted b with _ | v
      · rfl
      · have := driftLoop_alerted_some dist (currentPositions (filterActivation home batch))
          now home st.alerted b v hv
        rw [this] at hal; cases hal

/-! ## Claim theorems -/

/-- C1, counterexample.  Buoy `D1` is in the persisted AlertState
(`first_alerted_at = 5`), the master CSV exists, and the processed batch
reports `D1` exactly at its home position `(54, 8)` — so its distance from
home (0 for coincident points, as `haversine_spec` proves for the real
haversine, here the matching `zeroDist` instance) is within
`ALERT_THRESHOLD = 50`.  The claim says this removes `D1` from the
AlertState mapping; in fact the code never deletes a key of `alerted`
(`# Only alert once per buoy ever`, line 302), and `D1` is still mapped to
its old timestamp afterwards. -/
theorem c1_counterexample :
    zeroDist 54 8 54 8 ≤ 50 ∧
    alookup stAlerting.alerted "D1" = some 5 ∧
    alookup (processAttachment zeroDist hwD1 stAlerting [recHome] "b.csv" 20).state.alerted
      "D1" = some 5 := by
  refine ⟨by norm_num [zeroDist], rfl, ?_⟩
  decide

/-- C1, amended: the `Alerting → Nominal` transition does not exist in the
code.  Once a buoy is in the AlertState mapping, processing any further
batch — whatever positions it reports, whether the buoy reappears or stays
silent — leaves that buoy's entry exactly as it was: alert state is never
cleared, so no re-crossing can ever produce a new alert. -/
theorem c1_alert_state_never_cleared (dist : DistFn) (home : HomeRegistry) (st : PState)
    (batch : List Record) (fname : String) (now : Nat) (b : String)
    (h : (alookup st.alerted b).isSome = true) :
    alookup (processAttachment dist home st batch fname now).state.alerted b =
      alookup st.alerted b := by
  rcases hv : alookup st.alerted b with _ | v
  · rw [hv] at h; cases h
  · exact processAttachment_alerted_some dist home st batch fname now b v hv

/-- C1 witness: the amended theorem evaluated at a concrete alerting
state. -/
theorem c1_witness :
    (alookup stAlerting.alerted "D1").isSome = true ∧
    alookup (processAttachment zeroDist hwD1 stAlerting [recHome] "b.csv" 20).state.alerted
      "D1" = alookup stAlerting.alerted "D1" :=
  ⟨rfl, c1_alert_state_never_cleared zeroDist hwD1 stAlerting [recHome] "b.csv" 20 "D1" rfl⟩

/-- C2: once a buoy is in the AlertState mapping, processing any further
batch — whether a drift or silence condition persists — sends no
notification about that buoy and leaves its AlertState entry unchanged: at
most one notification per continuous excursion.  Both guards in the code
(`dist > ALERT_THRESHOLD and buoy not in alerted`, line 303, and
`if buoy not in alerted`, line 327) skip buoys already in `alerted`. -/
theorem c2_no_renotification_while_alerting (dist : DistFn) (home : HomeRegistry)
    (st : PState) (batch : List Record) (fname : String) (now : Nat) (b : String) (t : Nat)
    (h : alookup st.alerted b = some t) :
    alookup (processAttachment dist home st batch fname now).state.alerted b = some t ∧
    ∀ n ∈ (processAttachment dist home st batch fname now).notifs, notifBuoy n ≠ b := by
  refine ⟨processAttachment_alerted_some dist home st batch fname now b t h, ?_⟩
  intro n hn he
  have hfresh := processAttachment_notif_fresh dist home st batch fname now n hn
  rw [he, h] at hfresh
  cases hfresh

/-- C2 witness: buoy `D1` is alerting and its batch position is very far
from home (`farDist` reports 1000000 m > 50 m, a persisting drift
condition): no notification about `D1` is sent and its entry keeps
`first_alerted_at = 5`. -/
theorem c2_witness :
    alookup stAlerting.alerted "D1" = some 5 ∧
    (alookup (processAttachment farDist hwD1 stAlerting [recHome] "b.csv" 20).state.alerted
        "D1" = some 5 ∧
     ∀ n ∈ (processAttachment farDist hwD1 stAlerting [recHome] "b.csv" 20).notifs,
        notifBuoy n ≠ "D1") :=
  ⟨rfl, c2_no_renotification_while_alerting farDist hwD1 stAlerting [recHome] "b.csv" 20
    "D1" 5 rfl⟩

/-- C3: the ingest filter keeps, of the records whose buoy has a
home-registry entry, exactly those with `timestamp > activation_time`
(`df.loc[df['date_UTC'] > activation_times]`, line 273), the cleaned batch
is a sublist of the incoming batch (relative order preserved), and the
appended master CSV is the old rows followed by exactly the cleaned
batch. -/
theorem c3_activation_filtering (dist : DistFn) (home : HomeRegistry) (st : PState)
    (batch : List Record) (fname : String) (now : Nat) :
    List.Sublist (processAttachment dist home st batch fname now).cleaned batch ∧
    (∀ r ∈ batch, ∀ hh : HomePos, alookup home r.dNumber = some hh →
      (r ∈ (processAttachment dist home st batch fname now).cleaned ↔
        hh.activation < r.dateUTC)) ∧
    ∀ rows, st.master = some rows →
      (processAttachment dist home st batch fname now).state.master =
        some (rows ++ (processAttachment dist home st batch fname now).cleaned) := by
  refine ⟨?_, ?_, ?_⟩
  · rw [processAttachment_cleaned, filterActivation]
    exact List.filter_sublist batch
  · intro r hr hh hhh
    rw [processAttachment_cleaned, filterActivation, List.mem_filter,
      keepAfterActivation, hhh]
    simp [hr]
  · intro rows hm
    simp [processAttachment, hm, processAttachment_cleaned]

/-- C4: with an existing master CSV, a silence notification for a buoy is
sent exactly when it is a known buoy (`home_ids`), absent from the cleaned
batch admitted to alert evaluation (`current_ids`, built from the batch
after activation filtering), and not already alerting; and every known
buoy absent from the cleaned batch ends up in the AlertState mapping. -/
theorem c4_silence_evaluation (dist : DistFn) (home : HomeRegistry) (st : PState)
    (batch : List Record) (fname : String) (now : Nat) (b : String) (rows : List Record)
    (hm : st.master = some rows) :
    (Notif.silence b ∈ (processAttachment dist home st batch fname now).notifs ↔
      (b ∈ home.map (fun p => p.1) ∧
       b ∉ (filterActivation home batch).map (fun r => r.dNumber) ∧
       alookup st.alerted b = none)) ∧
    ((b ∈ home.map (fun p => p.1) ∧
      b ∉ (filterActivation home batch).map (fun r => r.dNumber)) →
      (alookup (processAttachment dist home st batch fname now).state.alerted b).isSome
        = true) := by
  simp only [processAttachment, hm]
  set cleaned := filterActivation home batch with hcl
  set current := currentPositions cleaned with hcu
  have hids : ∀ a, a ∈ current.map (fun p => p.1) ↔ a ∈ cleaned.map (fun r => r.dNumber) :=
    fun a => currentPositions_keys cleaned a
  constructor
  · constructor
    · intro hmem
      rw [List.mem_append] at hmem
      rcases hmem with hmem | hmem
      · obtain ⟨b2, d0, he, _, _, _⟩ := driftLoop_notif _ _ _ _ _ _ hmem
        cases he
      · obtain ⟨b2, he, hnin, hal, hkeys⟩ := silenceLoop_notif _ _ _ _ _ hmem
        injection he with hb
        subst hb
        refine ⟨hkeys, ?_, ?_⟩
        · rw [← hids]; exact hnin
        · rcases hv : alookup st.alerted b with _ | v
          · rfl
          · have := driftLoop_alerted_some dist current now home st.alerted b v hv
            rw [this] at hal; cases hal
    · rintro ⟨hkeys, hnb, hal⟩
      have hnotin : b ∉ current.map (fun p => p.1) := by rw [hids]; exact hnb
      have hcurnone : alookup current b = none := alookup_none_iff.mpr hnotin
      have hal1 : alookup (driftLoop dist current now home st.alerted).1 b = none := by
        rw [driftLoop_alerted_of_not_current _ _ _ _ _ _ hcurnone]; exact hal
      obtain ⟨p, hp, hpe⟩ := List.mem_map.mp hkeys
      have hbh : (b, p.2) ∈ home := by rw [← hpe, Prod.mk.eta]; exact hp
      rw [List.mem_append]
      exact Or.inr (silenceLoop_triggers _ _ _ _ _ _ hbh hnotin hal1)
  · rintro ⟨hkeys, hnb⟩
    have hnotin : b ∉ current.map (fun p => p.1) := by rw [hids]; exact hnb
    obtain ⟨p, hp, hpe⟩ := List.mem_map.mp hkeys
    have hbh : (b, p.2) ∈ home := by rw [← hpe, Prod.mk.eta]; exact hp
    exact silenceLoop_covers _ _ _ _ _ _ hbh hnotin

/-- C4 witness: registry `{D1, D2}`, batch reporting only `D1`: buoy `D2`
gets exactly the silence treatment — a silence notification (it was not
alerting) and an AlertState entry. -/
theorem c4_witness :
    (Notif.silence "D2" ∈ (processAttachment zeroDist hwD12 stMaster [recHome] "b.csv" 20).notifs ↔
      ("D2" ∈ hwD12.map (fun p => p.1) ∧
       "D2" ∉ (filterActivation hwD12 [recHome]).map (fun r => r.dNumber) ∧
       alookup stMaster.alerted "D2" = none)) ∧
    (("D2" ∈ hwD12.map (fun p => p.1) ∧
      "D2" ∉ (filterActivation hwD12 [recHome]).map (fun r => r.dNumber)) →
      (alookup (processAttachment zeroDist hwD12 stMaster [recHome] "b.csv" 20).state.alerted
          "D2").isSome = true) :=
  c4_silence_evaluation zeroDist hwD12 stMaster [recHome] "b.csv" 20 "D2" [] rfl

/-- C8, counterexample.  A batch with a single record of the unknown buoy
`D9` (no `hwD1` entry): the record is dropped from the cleaned batch — but
nothing is logged about the drop.  The only log line emitted while the
batch is processed is `"Appended 0 rows from att.csv"` (line 351), which
does not mention the dropped record's buoy, refuting "the drop is
logged". -/
theorem c8_counterexample :
    (processAttachment zeroDist hwD1 stFresh [recUnknown] "att.csv" 7).cleaned = [] ∧
    (processAttachment zeroDist hwD1 stFresh [recUnknown] "att.csv" 7).logs =
      [LogMsg.appended 0 "att.csv"] ∧
    ¬ ∃ l ∈ (processAttachment zeroDist hwD1 stFresh [recUnknown] "att.csv" 7).logs,
        logMentions l "D9" = true := by
  decide

/-- C8, amended: a record referencing a buoy absent from the home registry
is dropped from the cleaned batch *silently* — the `NaN` activation
comparison at line 273 discards the row, and no log message emitted during
the batch mentions that buoy (the code has no per-row drop logging); the
run continues. -/
theorem c8_unknown_buoy_dropped_silently (dist : DistFn) (home : HomeRegistry) (st : PState)
    (batch : List Record) (fname : String) (now : Nat) (r : Record)
    (_hr : r ∈ batch) (hu : alookup home r.dNumber = none) :
    r ∉ (processAttachment dist home st batch fname now).cleaned ∧
    ∀ l ∈ (processAttachment dist home st batch fname now).logs,
      logMentions l r.dNumber = false := by
  constructor
  · rw [processAttachment_cleaned, filterActivation]
    intro hmem
    rw [List.mem_filter, keepAfterActivation, hu] at hmem
    exact absurd hmem.2 (by simp)
  · intro l hl
    cases hm : st.master with
    | none =>
      simp only [processAttachment, hm, List.mem_singleton] at hl
      subst hl; rfl
    | some rows =>
      simp only [processAttachment, hm, List.mem_append] at hl
      rcases hl with hl | hl
      · obtain ⟨bb, he, hbb⟩ := driftLoop_log _ _ _ _ _ _ hl
        subst he
        have hnot : r.dNumber ∉ home.map (fun p => p.1) := alookup_none_iff.mp hu
        have hne : bb ≠ r.dNumber := fun he2 => hnot (he2 ▸ hbb)
        simp [logMentions, hne]
      · rw [List.mem_singleton] at hl
        subst hl; rfl

/-- C8 witness: the amended theorem at the concrete unknown-buoy batch. -/
theorem c8_witness :
    recUnknown ∉ (processAttachment zeroDist hwD1 stMaster [recUnknown] "att.csv" 7).cleaned ∧
    ∀ l ∈ (processAttachment zeroDist hwD1 stMaster [recUnknown] "att.csv" 7).logs,
      logMentions l recUnknown.dNumber = false :=
  c8_unknown_buoy_dropped_silently zeroDist hwD1 stMaster [recUnknown] "att.csv" 7
    recUnknown (by simp) rfl

/-- C10: on the first-ever run — the master CSV does not exist
(`os.path.exists(MASTER_CSV)` false, line 276) — the whole alert block
(drift and silence, lines 277-341) is skipped: no notification of either
kind is emitted and the AlertState mapping is exactly unchanged, whatever
the batch reports and whichever known buoys are absent. -/
theorem c10_no_alert_evaluation_without_master (dist : DistFn) (home : HomeRegistry)
    (st : PState) (batch : List Record) (fname : String) (now : Nat)
    (hm : st.master = none) :
    (processAttachment dist home st batch fname now).notifs = [] ∧
    (processAttachment dist home st batch fname now).state.alerted = st.alerted := by
  simp [processAttachment, hm]

/-- C10 witness: fresh store, a registry with known buoy `D1`, an empty
batch (so `D1` is absent) and a distance function reporting a huge drift:
still no notifications and no AlertState change. -/
theorem c10_witness :
    stFresh.master = none ∧
    (processAttachment farDist hwD1 stFresh [] "b.csv" 9).notifs = [] ∧
    (processAttachment farDist hwD1 stFresh [] "b.csv" 9).state.alerted =
      stFresh.alerted :=
  ⟨rfl, c10_no_alert_evaluation_without_master farDist hwD1 stFresh [] "b.csv" 9 rfl⟩

/-! ## Haversine lemmas (over ℝ) -/

theorem haversine_self (lat lon : ℝ) : haversine lat lon lat lon = 0 := by
  simp [haversine, radians]

theorem haversine_symm (lat1 lon1 lat2 lon2 : ℝ) :
    haversine lat1 lon1 lat2 lon2 = haversine lat2 lon2 lat1 lon1 := by
  have h1 : ∀ a b : ℝ,
      Real.sin (radians (a - b) / 2) ^ 2 = Real.sin (radians (b - a) / 2) ^ 2 := by
    intro a b
    have hneg : radians (a - b) = -(radians (b - a)) := by
      simp only [radians]; ring
    rw [hneg, neg_div, Real.sin_neg, neg_sq]
  simp only [haversine]
  rw [h1 lat2 lat1, h1 lon2 lon1,
    mul_comm (Real.cos (radians lat1)) (Real.cos (radians lat2))]

theorem haversine_arcminute (lat lon : ℝ) :
    |haversine lat lon (lat + 1 / 60) lon - 1852| ≤ 1852 / 100 := by
  have hval : haversine lat lon (lat + 1 / 60) lon = 6371000 * Real.pi / 10800 := by
    have h1 : (lat + 1 / 60) - lat = (1 : ℝ) / 60 := by ring
    have h2 : lon - lon = (0 : ℝ) := sub_self lon
    have h3 : radians (1 / 60) / 2 = Real.pi / 21600 := by
      simp only [radians]; ring
    have h4 : radians 0 / 2 = 0 := by simp [radians]
    rw [haversine, h1, h2, h3, h4]
    have hsin_nonneg : 0 ≤ Real.sin (Real.pi / 21600) :=
      Real.sin_nonneg_of_nonneg_of_le_pi (by positivity)
        (by linarith [Real.pi_pos])
    rw [Real.sin_zero]
    have hzero : Real.sin (Real.pi / 21600) ^ 2 +
        Real.cos (radians lat) * Real.cos (radians (lat + 1 / 60)) * 0 ^ 2 =
        Real.sin (Real.pi / 21600) ^ 2 := by ring
    rw [hzero, Real.sqrt_sq hsin_nonneg, Real.arcsin_sin
      (by linarith [Real.pi_pos]) (by linarith [Real.pi_pos])]
    ring
  rw [hval, abs_le]
  constructor <;> linarith [Real.pi_gt_d2, Real.pi_lt_d2]

theorem haversine_antipodal : haversine 0 0 0 180 = 6371000 * Real.pi := by
  have h0 : radians (0 - 0) / 2 = 0 := by simp [radians]
  have h1 : radians (180 - 0) / 2 = Real.pi / 2 := by
    simp only [radians]; ring
  have hr0 : radians 0 = 0 := by simp [radians]
  rw [haversine, h0, h1, hr0]
  rw [Real.sin_zero, Real.cos_zero, Real.sin_pi_div_two]
  norm_num [Real.arcsin_one]
  ring

/-! ## Claim theorems, continued -/

/-- C5: the distance function `haversine` (spherical Earth of radius
6371000 m) vanishes on coincident points, is symmetric under swapping the
two points, gives a result within 1% of 1852 m for two points one
arc-minute of latitude apart, and returns `π · 6371000` for two
equatorial antipodes — the quantity through which the radius 6371000 is
directly observable. -/
theorem c5_haversine_distance :
    (∀ lat lon : ℝ, haversine lat lon lat lon = 0) ∧
    (∀ lat1 lon1 lat2 lon2 : ℝ,
      haversine lat1 lon1 lat2 lon2 = haversine lat2 lon2 lat1 lon1) ∧
    (∀ lat lon : ℝ, |haversine lat lon (lat + 1 / 60) lon - 1852| ≤ 1852 / 100) ∧
    haversine 0 0 0 180 = 6371000 * Real.pi :=
  ⟨haversine_self, haversine_symm, haversine_arcminute, haversine_antipodal⟩

/-- C6, counterexample.  `D2`'s last stored record has
`batteryState = "GOOD"`; `D2` is in the home registry but not among the
buoys seen this run.  The claim says the builder leaves every field of the
last known record — "in particular its battery_state" — unchanged; in fact
the missing-transmission annotation *is* an overwrite of `batteryState`
(lines 390-394): the view row carries `"UNKNOWN"`, not `"GOOD"`. -/
theorem c6_counterexample :
    currentPositions [recD2] = [("D2", recD2)] ∧
    recD2.battery = "GOOD" ∧
    buildLatestView zeroDist hwD12 [recD2] [] = [rowD2] ∧
    rowD2.battery ≠ "GOOD" := by
  refine ⟨rfl, rfl, ?_, by decide⟩
  decide

/-- C6, amended: every view row is built from that buoy's latest stored
record with coordinates, timestamp, merged home position and distance
taken unchanged from it; for a buoy in the home registry that is absent
from `seen_ids` the `batteryState` field is overwritten with `"UNKNOWN"`
(this overwrite is the missing-transmission marker), and it is left at the
stored record's value otherwise. -/
theorem c6_missing_marked_in_battery_state (dist : DistFn) (home : HomeRegistry)
    (master : List Record) (seen : List String) (row : ViewRow)
    (hrow : row ∈ buildLatestView dist home master seen) :
    ∃ r, (row.dNumber, r) ∈ currentPositions master ∧
      row.lat = r.lat ∧ row.lon = r.lon ∧ row.dateUTC = r.dateUTC ∧
      row.homePos = (alookup home row.dNumber).map (fun h => (h.latHome, h.lonHome)) ∧
      row.distance = (alookup home row.dNumber).map
        (fun h => dist h.latHome h.lonHome r.lat r.lon) ∧
      (row.dNumber ∈ home.map (fun p => p.1) ∧ row.dNumber ∉ seen →
        row.battery = "UNKNOWN") ∧
      (row.dNumber ∉ home.map (fun p => p.1) ∨ row.dNumber ∈ seen →
        row.battery = r.battery) := by
  rw [buildLatestView, List.mem_map] at hrow
  obtain ⟨p, hp, hpe⟩ := hrow
  rw [markMissing] at hpe
  by_cases hcond : (mkViewRow dist home p).dNumber ∈ home.map (fun q => q.1) ∧
      (mkViewRow dist home p).dNumber ∉ seen
  · rw [if_pos hcond] at hpe
    subst hpe
    refine ⟨p.2, ?_, rfl, rfl, rfl, rfl, rfl, fun _ => rfl, fun hcon => ?_⟩
    · show (p.1, p.2) ∈ currentPositions master
      rw [Prod.mk.eta]; exact hp
    · rcases hcon with hcon | hcon
      · exact absurd hcond.1 hcon
      · exact absurd hcon hcond.2
  · rw [if_neg hcond] at hpe
    subst hpe
    refine ⟨p.2, ?_, rfl, rfl, rfl, rfl, rfl, fun hcon => absurd hcon hcond, fun _ => rfl⟩
    show (p.1, p.2) ∈ currentPositions master
    rw [Prod.mk.eta]; exact hp

/-- C6 witness: the amended theorem evaluated on the concrete missing-buoy
view. -/
theorem c6_witness :
    ∃ r, (rowD2.dNumber, r) ∈ currentPositions [recD2] ∧
      rowD2.lat = r.lat ∧ rowD2.lon = r.lon ∧ rowD2.dateUTC = r.dateUTC ∧
      rowD2.homePos = (alookup hwD12 rowD2.dNumber).map (fun h => (h.latHome, h.lonHome)) ∧
      rowD2.distance = (alookup hwD12 rowD2.dNumber).map
        (fun h => zeroDist h.latHome h.lonHome r.lat r.lon) ∧
      (rowD2.dNumber ∈ hwD12.map (fun p => p.1) ∧ rowD2.dNumber ∉ ([] : List String) →
        rowD2.battery = "UNKNOWN") ∧
      (rowD2.dNumber ∉ hwD12.map (fun p => p.1) ∨ rowD2.dNumber ∈ ([] : List String) →
        rowD2.battery = r.battery) :=
  c6_missing_marked_in_battery_state zeroDist hwD12 [recD2] [] rowD2 (by decide)

/-- C7, counterexample.  A run whose first message is malformed and whose
second is well-formed: the claim says the malformed batch is skipped and
the run continues with the remaining batches; in fact `pd.read_csv`'s
exception propagates to `__main__` (lines 419-429), the run aborts with
exit 1, and the well-formed message `m2` is neither processed nor
consumed (`consumed = []`, state untouched). -/
theorem c7_counterexample :
    parseOk msgGood = true ∧
    runAll zeroDist hwD1 stFresh [] [msgBad, msgGood] = .error (stFresh, []) :=
  ⟨rfl, rfl⟩

/-- C7, amended: a malformed batch is *fatal*, not batch-scoped: a run
over a clean prefix followed by a malformed message aborts at that
message, with exactly the prefix's messages processed and consumed; the
malformed message and everything after it are not processed, and a
non-zero exit reports the failure.  Only the already-committed prefix
survives. -/
theorem c7_malformed_batch_aborts_run (dist : DistFn) (home : HomeRegistry) :
    ∀ (pre : List Msg) (st : PState) (consumed : List String) (bad : Msg)
      (rest : List Msg),
    (∀ m ∈ pre, parseOk m = true) → parseOk bad = false →
    runAll dist home st consumed (pre ++ bad :: rest) =
      .error (runGood dist home st pre, consumed ++ pre.map (fun m => m.id)) := by
  intro pre
  induction pre with
  | nil =>
    intro st consumed bad rest _ hbad
    cases hp : bad.payload with
    | error e => simp [runAll, runGood, hp]
    | ok batch => simp [parseOk, hp] at hbad
  | cons m pre ih =>
    intro st consumed bad rest hpre hbad
    have hm : parseOk m = true := hpre m (by simp)
    cases hp : m.payload with
    | error e => simp [parseOk, hp] at hm
    | ok batch =>
      simp only [List.cons_append, runAll, runGood, hp, List.append_eq]
      rw [ih _ _ bad rest (fun m2 hm2 => hpre m2 (by simp [hm2])) hbad]
      simp

/-- C7 witness: the amended theorem on the concrete run
`[good, bad, good]`. -/
theorem c7_witness :
    runAll zeroDist hwD1 stFresh [] ([msgGood] ++ msgBad :: [msgGood2]) =
      .error (runGood zeroDist hwD1 stFresh [msgGood],
        [] ++ [msgGood].map (fun m => m.id)) :=
  c7_malformed_batch_aborts_run zeroDist hwD1 [msgGood] stFresh [] msgBad [msgGood2]
    (by decide) rfl

/-- C9: the consumption marker (mark read + label, lines 356-363) appears
in a message's effect trace exactly when both the AlertState persistence
(lines 344-345) and the master-CSV append (line 349) succeeded — and then
only after both of them, the trace being persist, append, mark in that
order.  If either write raises, the exception propagates and the message
is never marked consumed. -/
theorem c9_mark_consumed_after_persist_and_append (dist : DistFn) (home : HomeRegistry)
    (persistOk appendOk : Bool) (st : PState) (batch : List Record) (fname : String)
    (now : Nat) :
    Effect.markedConsumed ∈
        (processMessage dist home persistOk appendOk st batch fname now).2 ↔
      (persistOk = true ∧ appendOk = true ∧
        (processMessage dist home persistOk appendOk st batch fname now).2 =
          [.persistedAlertState, .appendedToMaster, .markedConsumed]) := by
  cases persistOk <;> cases appendOk <;> simp [processMessage]

end Taschenkrebs
